import Mathlib

/-!
Verification of the una-health-backend glucose service.

The development shallowly embeds the ingestion pipeline of
src/main.py (the load_data endpoint), the single-record create
endpoint, and the sorting logic of the list endpoint
(get_glucose_levels).  Filenames are modelled as lists of
characters so that the Python string operations split, endswith,
in and replace can be translated exactly; CSV content is modelled
after decoding and csv parsing, as the list of rows that
csv.reader yields, each row a list of field strings.  The two
stdlib parsers datetime.strptime with the fixed format and float
are external collaborators and appear as abstract parameters
returning Option; database persistence is modelled by the list of
records committed at the end of the request, an HTTP error
outcome persisting nothing (the session is discarded before
commit).
-/

namespace UnaHealth

/-- Python str.split with separator a single dot: splits a character list
at every occurrence of the dot, keeping empty pieces, so the result is
always non-empty.  Models the expression filename.split in load_data. -/
def pySplitDot : List Char → List (List Char)
  | [] => [[]]
  | c :: cs =>
    if c = '.' then [] :: pySplitDot cs
    else
      match pySplitDot cs with
      | [] => [[c]]
      | h :: t => (c :: h) :: t

/-- Ordered membership test of a non-empty pattern, Python substring
containment for the expression testing desc in sort: the pattern occurs
starting at some position of the haystack. -/
def pyContains (needle : List Char) : List Char → Bool
  | [] => needle.isEmpty
  | c :: cs => needle.isPrefixOf (c :: cs) || pyContains needle cs

/-- Left-to-right, non-overlapping removal of the occurrences of the
non-empty pattern whose head is p and tail ps, Python str.replace with
an empty replacement string.  The recursion is structural on a fuel
argument so that the kernel can evaluate it; fuel at least the length
of the string suffices, since each step consumes at least one
character. -/
def pyRemoveAux (p : Char) (ps : List Char) : Nat → List Char → List Char
  | _, [] => []
  | 0, _ => []
  | fuel + 1, c :: cs =>
    if (p :: ps).isPrefixOf (c :: cs) then pyRemoveAux p ps fuel (cs.drop ps.length)
    else c :: pyRemoveAux p ps fuel cs

/-- Python str.replace pat with the empty string.  The source only calls
this with the non-empty patterns .asc and .desc; the empty-pattern case
returns the string unchanged and is never used. -/
def pyReplaceDel (pat : List Char) (s : List Char) : List Char :=
  match pat with
  | [] => s
  | p :: ps => pyRemoveAux p ps s.length s

/-- Device-timestamp column name, the exact literal of main.py line 102
(the mojibake is in the source). -/
def tsColName : String := "GerÃ¤tezeitstempel"

/-- Glucose-value column name, the exact literal of main.py line 103. -/
def gvColName : String := "Glukosewert-Verlauf mg/dL"

/-- A persisted database row of the glucose_levels table.  All three
data columns of the GlucoseLevel model in src/models.py are declared
without a NOT NULL constraint, so each field is an Option; the id column
is assigned by storage and is not modelled. -/
structure DbRecord (τ γ : Type) where
  user_id : Option (List Char)
  timestamp : Option τ
  glucose_value : Option γ
deriving DecidableEq

/-- Outcome of one request: ok carries the committed records, httpError
carries the HTTP status code and persists nothing (the exception paths
of load_data all skip db.commit). -/
inductive LoadResult (τ γ : Type) where
  | ok (persisted : List (DbRecord τ γ))
  | httpError (code : Nat)
deriving DecidableEq

/-- Header scan of main.py lines 95 to 99: consume rows in order until
the first row of exactly 19 fields, returning it with the rows that the
csv iterator has not yet consumed; none when no such row exists. -/
def findHeader : List (List String) → Option (List String × List (List String))
  | [] => none
  | r :: rs => if r.length = 19 then some (r, rs) else findHeader rs

/-- Python list.index by exact string equality, returning the first
matching index or none instead of raising ValueError. -/
def pyIndex (name : String) (hdr : List String) : Option Nat :=
  hdr.findIdx? (· = name)

/-- One iteration of the row loop, main.py lines 108 to 125.  Field
extraction by index raises IndexError when the row is too short, which
is modelled as the error outcome; a falsy (empty) field skips the row;
a parse failure of either parser is the caught ValueError and also
skips; otherwise the record built at lines 117 to 121 is produced. -/
def processRow {τ γ : Type} (parseTs : String → Option τ) (parseVal : String → Option γ)
    (uid : List Char) (ti vi : Nat) (row : List String) :
    Except Unit (Option (DbRecord τ γ)) :=
  match row[ti]? with
  | none => .error ()
  | some tsStr =>
    match row[vi]? with
    | none => .error ()
    | some vStr =>
      if tsStr ≠ "" ∧ vStr ≠ "" then
        match parseTs tsStr with
        | none => .ok none
        | some t =>
          match parseVal vStr with
          | none => .ok none
          | some v => .ok (some ⟨some uid, some t, some v⟩)
      else .ok none

/-- The whole row loop: an error from any row aborts the loop (the
IndexError propagates out of the for statement), a skipped row adds
nothing, an accepted row appends its record in order. -/
def processRows {τ γ : Type} (parseTs : String → Option τ) (parseVal : String → Option γ)
    (uid : List Char) (ti vi : Nat) : List (List String) → Except Unit (List (DbRecord τ γ))
  | [] => .ok []
  | r :: rs =>
    match processRow parseTs parseVal uid ti vi r with
    | .error e => .error e
    | .ok none => processRows parseTs parseVal uid ti vi rs
    | .ok (some rec) =>
      match processRows parseTs parseVal uid ti vi rs with
      | .error e => .error e
      | .ok recs => .ok (rec :: recs)

/-- The record produced by one row, none when the row is skipped or
aborts; used to state per-row persistence. -/
def rowOutcome {τ γ : Type} (parseTs : String → Option τ) (parseVal : String → Option γ)
    (uid : List Char) (ti vi : Nat) (row : List String) : Option (DbRecord τ γ) :=
  match processRow parseTs parseVal uid ti vi row with
  | .ok o => o
  | .error _ => none

/-- The load_data endpoint, main.py lines 77 to 132.  The filename
extension check at line 82 rejects with 400 before the try block.
Inside the try block: user_id is filename.split at dots, first piece;
the header scan; column resolution, whose ValueError path raises an
HTTPException with status 400 at line 106 that the enclosing except
Exception handler at line 130 catches and converts to 500 (as it does
the AttributeError when no header row was found, headers being None);
then the row loop, whose uncaught IndexError also reaches that handler;
finally db.commit persists the added records. -/
def load_data {τ γ : Type} (parseTs : String → Option τ) (parseVal : String → Option γ)
    (filename : List Char) (rows : List (List String)) : LoadResult τ γ :=
  if !(".csv".toList.isSuffixOf filename) then .httpError 400
  else
    let uid := (pySplitDot filename).headD []
    match findHeader rows with
    | none => .httpError 500
    | some (hdr, rest) =>
      match pyIndex tsColName hdr, pyIndex gvColName hdr with
      | some ti, some vi =>
        match processRows parseTs parseVal uid ti vi rest with
        | .ok recs => .ok recs
        | .error _ => .httpError 500
      | _, _ => .httpError 500

/-- Request body of the create endpoint, src/schemas.py lines 4 to 15:
all three fields are required (non-optional) in the pydantic schema, so
a validated request always carries all of them. -/
structure GlucoseLevelCreate (τ γ : Type) where
  user_id : List Char
  timestamp : τ
  glucose_value : γ

/-- The create_glucose_level endpoint, main.py lines 138 to 148: the
persisted row is built from the schema fields, all present. -/
def create_glucose_level {τ γ : Type} (g : GlucoseLevelCreate τ γ) : DbRecord τ γ :=
  ⟨some g.user_id, some g.timestamp, some g.glucose_value⟩

/-- The relational query assembled by get_glucose_levels, main.py lines
33 to 62: user filter, optional timestamp bounds, an optional order-by
clause (descending flag and column name), and offset/limit pagination. -/
structure QueryPlan (δ : Type) where
  userFilter : List Char
  startFilter : Option δ
  stopFilter : Option δ
  orderBy : Option (Bool × List Char)
  offset : Nat
  limit : Nat
deriving DecidableEq

/-- Sorting and pagination logic of get_glucose_levels, main.py lines
46 to 60.  The direction is descending when desc occurs anywhere in the
sort string; the column is the sort string with .asc then .desc removed
by str.replace; hasAttr models the hasattr check against the
GlucoseLevel class, and when it fails no order-by clause is attached
(the query is not rejected). -/
def get_glucose_levels {δ : Type} (hasAttr : List Char → Bool) (user_id : List Char)
    (start stop : Option δ) (page page_size : Nat) (sort : List Char) : QueryPlan δ :=
  let sortDesc := pyContains "desc".toList sort
  let sortCol := pyReplaceDel ".desc".toList (pyReplaceDel ".asc".toList sort)
  { userFilter := user_id
    startFilter := start
    stopFilter := stop
    orderBy := if hasAttr sortCol then some (sortDesc, sortCol) else none
    offset := (page - 1) * page_size
    limit := page_size }

/-- Concrete timestamp parser used by witnesses: accepts exactly one
string of the fixed format, as a stand-in instance of strptime. -/
def tsParser0 (s : String) : Option Nat :=
  if s = "01-01-2023 00:00" then some 1 else none

/-- Concrete value parser used by witnesses: accepts exactly one
numeral, as a stand-in instance of float. -/
def valParser0 (s : String) : Option Nat :=
  if s = "100" then some 2 else none

/-- A 19-field header carrying both required column names at indices 0
and 1, used by witnesses and counterexamples. -/
def hdr0 : List String := tsColName :: gvColName :: List.replicate 17 ""

/-- A data row that both concrete parsers accept. -/
def goodRow0 : List String := ["01-01-2023 00:00", "100"]

/-- Python split never yields an empty list of pieces. -/
theorem pySplitDot_ne_nil (l : List Char) : pySplitDot l ≠ [] := by
  induction l with
  | nil => simp [pySplitDot]
  | cons c cs ih =>
    by_cases hc : c = '.'
    · simp [pySplitDot, hc]
    · simp only [pySplitDot, hc, if_false]
      cases hsp : pySplitDot cs with
      | nil => simp
      | cons h t => simp

/-- The first piece of the Python split at dots is the text before the
first dot. -/
theorem pySplitDot_headD (l : List Char) :
    (pySplitDot l).headD [] = l.takeWhile (· != '.') := by
  induction l with
  | nil => rfl
  | cons c cs ih =>
    by_cases hc : c = '.'
    · simp [pySplitDot, hc, List.takeWhile_cons]
    · cases hsp : pySplitDot cs with
      | nil => exact absurd hsp (pySplitDot_ne_nil cs)
      | cons h t =>
        rw [hsp] at ih
        simp only [List.headD_cons] at ih
        simp [pySplitDot, hc, hsp, List.takeWhile_cons, ih]

/-- Rows of the wrong width before the header are skipped by the
scan. -/
theorem findHeader_append (pre rest : List (List String))
    (hpre : ∀ r ∈ pre, r.length ≠ 19) :
    findHeader (pre ++ rest) = findHeader rest := by
  induction pre with
  | nil => rfl
  | cons p ps ih =>
    have hp := hpre p (by simp)
    simp only [List.cons_append, findHeader, hp, if_false]
    exact ih fun r hr => hpre r (by simp [hr])

/-- When no row has the expected width the scan finds no header. -/
theorem findHeader_none (rows : List (List String))
    (h : ∀ r ∈ rows, r.length ≠ 19) : findHeader rows = none := by
  have := findHeader_append rows [] h
  simpa [findHeader] using this

/-- A row long enough for both resolved indices never raises
IndexError. -/
theorem processRow_ne_error {τ γ : Type} (parseTs : String → Option τ)
    (parseVal : String → Option γ) (uid : List Char) (ti vi : Nat) (row : List String)
    (hti : ti < row.length) (hvi : vi < row.length) :
    processRow parseTs parseVal uid ti vi row ≠ .error () := by
  simp only [processRow, List.getElem?_eq_getElem hti, List.getElem?_eq_getElem hvi]
  split
  · cases hpt : parseTs row[ti] with
    | none => simp
    | some t =>
      cases hpv : parseVal row[vi] with
      | none => simp
      | some v => simp
  · simp

/-- A row too short for one of the resolved indices raises
IndexError. -/
theorem processRow_error_of_short {τ γ : Type} (parseTs : String → Option τ)
    (parseVal : String → Option γ) (uid : List Char) (ti vi : Nat) (row : List String)
    (h : row.length ≤ ti ∨ row.length ≤ vi) :
    processRow parseTs parseVal uid ti vi row = .error () := by
  rcases h with h | h
  · simp [processRow, List.getElem?_eq_none h]
  · cases hti : row[ti]? with
    | none => simp [processRow, hti]
    | some ts => simp [processRow, hti, List.getElem?_eq_none h]

/-- Without any IndexError the loop accepts exactly the per-row
outcomes, in file order. -/
theorem processRows_eq_filterMap {τ γ : Type} (parseTs : String → Option τ)
    (parseVal : String → Option γ) (uid : List Char) (ti vi : Nat)
    (rs : List (List String))
    (h : ∀ r ∈ rs, processRow parseTs parseVal uid ti vi r ≠ .error ()) :
    processRows parseTs parseVal uid ti vi rs =
      .ok (rs.filterMap (rowOutcome parseTs parseVal uid ti vi)) := by
  induction rs with
  | nil => rfl
  | cons r rs ih =>
    have hr := h r (by simp)
    have hrest := ih fun x hx => h x (by simp [hx])
    cases hpr : processRow parseTs parseVal uid ti vi r with
    | error e => cases e; exact absurd hpr hr
    | ok o =>
      cases o with
      | none =>
        simp [processRows, hpr, hrest, List.filterMap_cons, rowOutcome]
      | some rec =>
        simp [processRows, hpr, hrest, List.filterMap_cons, rowOutcome]

/-- A row whose processing yields no record and no error can be removed
from the loop without changing its result. -/
theorem processRows_skip {τ γ : Type} (parseTs : String → Option τ)
    (parseVal : String → Option γ) (uid : List Char) (ti vi : Nat)
    (pre post : List (List String)) (r : List String)
    (h : processRow parseTs parseVal uid ti vi r = .ok none) :
    processRows parseTs parseVal uid ti vi (pre ++ r :: post) =
      processRows parseTs parseVal uid ti vi (pre ++ post) := by
  induction pre with
  | nil => simp [processRows, h]
  | cons p ps ih =>
    simp only [List.cons_append, processRows, List.append_eq]
    rw [ih]

/-- One row raising IndexError aborts the whole loop. -/
theorem processRows_error_of_mem {τ γ : Type} (parseTs : String → Option τ)
    (parseVal : String → Option γ) (uid : List Char) (ti vi : Nat)
    (rs : List (List String)) (r : List String) (hmem : r ∈ rs)
    (hr : processRow parseTs parseVal uid ti vi r = .error ()) :
    processRows parseTs parseVal uid ti vi rs = .error () := by
  induction rs with
  | nil => cases hmem
  | cons p ps ih =>
    rcases List.mem_cons.mp hmem with rfl | hmem'
    · simp [processRows, hr]
    · cases hpp : processRow parseTs parseVal uid ti vi p with
      | error e => cases e; simp [processRows, hpp]
      | ok o =>
        cases o with
        | none => simp [processRows, hpp, ih hmem']
        | some rec => simp [processRows, hpp, ih hmem']

/-- Any record the row loop produces carries the derived user id and a
present timestamp and value. -/
theorem processRow_fields {τ γ : Type} (parseTs : String → Option τ)
    (parseVal : String → Option γ) (uid : List Char) (ti vi : Nat) (row : List String)
    (rec : DbRecord τ γ)
    (h : processRow parseTs parseVal uid ti vi row = .ok (some rec)) :
    rec.user_id = some uid ∧ rec.timestamp ≠ none ∧ rec.glucose_value ≠ none := by
  unfold processRow at h
  split at h
  · exact absurd h (by simp)
  · split at h
    · exact absurd h (by simp)
    · split at h
      · split at h
        · exact absurd h (by simp)
        · split at h
          · exact absurd h (by simp)
          · injection h with h'
            injection h' with h''
            subst h''
            exact ⟨rfl, by simp, by simp⟩
      · exact absurd h (by simp)

/-- All records a completed loop commits carry the derived user id and
a present timestamp and value. -/
theorem processRows_fields {τ γ : Type} (parseTs : String → Option τ)
    (parseVal : String → Option γ) (uid : List Char) (ti vi : Nat)
    (rs : List (List String)) (recs : List (DbRecord τ γ))
    (h : processRows parseTs parseVal uid ti vi rs = .ok recs) :
    ∀ rec ∈ recs, rec.user_id = some uid ∧ rec.timestamp ≠ none ∧
      rec.glucose_value ≠ none := by
  induction rs generalizing recs with
  | nil =>
    simp only [processRows] at h
    injection h with h'
    subst h'
    intro rec hrec
    cases hrec
  | cons r rs ih =>
    rw [processRows] at h
    cases hpr : processRow parseTs parseVal uid ti vi r with
    | error e =>
      simp only [hpr] at h
      exact absurd h (by simp)
    | ok o =>
      cases o with
      | none =>
        simp only [hpr] at h
        exact ih recs h
      | some rec' =>
        simp only [hpr] at h
        cases hps : processRows parseTs parseVal uid ti vi rs with
        | error e =>
          simp only [hps] at h
          exact absurd h (by simp)
        | ok recs' =>
          simp only [hps, Except.ok.injEq] at h
          subst h
          intro rec hrec
          rcases List.mem_cons.mp hrec with rfl | hmem
          · exact processRow_fields parseTs parseVal uid ti vi r rec hpr
          · exact ih recs' hps rec hmem

/-- Python substring containment holds exactly when the haystack
decomposes around the needle. -/
theorem pyContains_iff (needle hay : List Char) :
    pyContains needle hay = true ↔ ∃ l r, hay = l ++ needle ++ r := by
  induction hay with
  | nil =>
    simp only [pyContains, List.isEmpty_iff]
    constructor
    · rintro rfl
      exact ⟨[], [], rfl⟩
    · rintro ⟨l, r, h⟩
      rcases List.append_eq_nil.mp h.symm with ⟨h1, h2⟩
      rcases List.append_eq_nil.mp h1 with ⟨_, h3⟩
      exact h3.symm ▸ rfl
  | cons c cs ih =>
    simp only [pyContains, Bool.or_eq_true, ih]
    constructor
    · rintro (hpre | ⟨l, r, rfl⟩)
      · obtain ⟨t, ht⟩ := List.isPrefixOf_iff_prefix.mp hpre
        exact ⟨[], t, by simp [← ht]⟩
      · exact ⟨c :: l, r, by simp⟩
    · rintro ⟨l, r, h⟩
      cases l with
      | nil =>
        left
        exact List.isPrefixOf_iff_prefix.mpr ⟨r, by simpa using h.symm⟩
      | cons x xs =>
        right
        simp only [List.cons_append, List.cons.injEq] at h
        exact ⟨xs, r, h.2⟩

/-- Unfolding of load_data once the extension check has passed. -/
theorem load_data_csv_true {τ γ : Type} (parseTs : String → Option τ)
    (parseVal : String → Option γ) (filename : List Char) (rows : List (List String))
    (hcsv : ".csv".toList.isSuffixOf filename = true) :
    load_data parseTs parseVal filename rows =
      match findHeader rows with
      | none => .httpError 500
      | some (hdr, rest) =>
        match pyIndex tsColName hdr, pyIndex gvColName hdr with
        | some ti, some vi =>
          match processRows parseTs parseVal ((pySplitDot filename).headD []) ti vi rest with
          | .ok recs => .ok recs
          | .error _ => .httpError 500
        | _, _ => .httpError 500 := by
  rw [load_data, hcsv]
  rfl

/-- C7.  A filename that does not end in .csv is rejected with HTTP 400
before the content is even looked at: the outcome is the 400 error, it
persists nothing, and it is the same for every possible content. -/
theorem c7_extension_reject {τ γ : Type} (parseTs : String → Option τ)
    (parseVal : String → Option γ) (filename : List Char)
    (h : ".csv".toList.isSuffixOf filename = false)
    (rows rows' : List (List String)) :
    load_data parseTs parseVal filename rows = .httpError 400 ∧
    load_data parseTs parseVal filename rows =
      load_data parseTs parseVal filename rows' := by
  have hmain : ∀ rs : List (List String),
      load_data parseTs parseVal filename rs = .httpError 400 := by
    intro rs
    rw [load_data, h]
    rfl
  exact ⟨hmain rows, (hmain rows).trans (hmain rows').symm⟩

/-- Witness for C7 at the spec scenario bob.txt. -/
theorem c7_witness :
    load_data tsParser0 valParser0 ("bob.txt".toList) [hdr0, goodRow0] =
      LoadResult.httpError 400 ∧
    load_data tsParser0 valParser0 ("bob.txt".toList) [hdr0, goodRow0] =
      load_data tsParser0 valParser0 ("bob.txt".toList) [] :=
  c7_extension_reject tsParser0 valParser0 ("bob.txt".toList) (by decide)
    [hdr0, goodRow0] []

/-- C6.  The header is the first row of exactly 19 fields; every row
before it is silently discarded, so the whole ingestion outcome is the
same as if those rows were absent, whatever their content. -/
theorem c6_header_scan {τ γ : Type} (parseTs : String → Option τ)
    (parseVal : String → Option γ) (filename : List Char)
    (pre : List (List String)) (hpre : ∀ r ∈ pre, r.length ≠ 19)
    (hdr : List String) (hhdr : hdr.length = 19) (rest : List (List String)) :
    findHeader (pre ++ hdr :: rest) = some (hdr, rest) ∧
    load_data parseTs parseVal filename (pre ++ hdr :: rest) =
      load_data parseTs parseVal filename (hdr :: rest) := by
  have hf : findHeader (pre ++ hdr :: rest) = some (hdr, rest) := by
    rw [findHeader_append pre (hdr :: rest) hpre]
    simp [findHeader, hhdr]
  refine ⟨hf, ?_⟩
  simp [load_data, hf, findHeader, hhdr]

/-- Witness for C6 with one metadata row before the header. -/
theorem c6_witness :
    findHeader ([["meta"]] ++ hdr0 :: [goodRow0]) = some (hdr0, [goodRow0]) ∧
    load_data tsParser0 valParser0 ("gina.csv".toList) ([["meta"]] ++ hdr0 :: [goodRow0]) =
      load_data tsParser0 valParser0 ("gina.csv".toList) (hdr0 :: [goodRow0]) :=
  c6_header_scan tsParser0 valParser0 ("gina.csv".toList) [["meta"]] (by decide)
    hdr0 (by decide) [goodRow0]

/-- C5.  A csv-named file with no 19-field row fails the whole request
with zero persisted records, and the observable outcome is the very one
a missing-columns file produces: the AttributeError on the absent
header reaches the same generic handler (HTTP 500) as the missing
columns exception. -/
theorem c5_no_header_fails {τ γ : Type} (parseTs : String → Option τ)
    (parseVal : String → Option γ) (filename : List Char)
    (hcsv : ".csv".toList.isSuffixOf filename = true)
    (rows : List (List String)) (hno : ∀ r ∈ rows, r.length ≠ 19) :
    load_data parseTs parseVal filename rows = .httpError 500 ∧
    load_data parseTs parseVal filename rows =
      load_data parseTs parseVal filename [List.replicate 19 "x"] := by
  have hf := findHeader_none rows hno
  have h1 : load_data parseTs parseVal filename rows = .httpError 500 := by
    rw [load_data_csv_true parseTs parseVal filename rows hcsv, hf]
  have hidx : pyIndex tsColName (List.replicate 19 "x") = none := by decide
  have hfh : findHeader [List.replicate 19 "x"] = some (List.replicate 19 "x", []) := by
    decide
  have h2 : load_data parseTs parseVal filename [List.replicate 19 "x"] =
      (.httpError 500 : LoadResult τ γ) := by
    rw [load_data_csv_true parseTs parseVal filename [List.replicate 19 "x"] hcsv, hfh]
    rfl
  exact ⟨h1, h1.trans h2.symm⟩

/-- Witness for C5 at the spec scenario carol.csv. -/
theorem c5_witness :
    load_data tsParser0 valParser0 ("carol.csv".toList) [["a"], ["b", "c"]] =
      LoadResult.httpError 500 :=
  (c5_no_header_fails tsParser0 valParser0 ("carol.csv".toList) (by decide)
    [["a"], ["b", "c"]] (by decide)).1

/-- C2.  Evaluation of the code at a 19-field header lacking the
required column names: the request does fail with nothing persisted,
but the status is 500, not the claimed 400 — the HTTPException carrying
status 400 raised at main.py line 106 is itself an Exception, so the
handler at line 130 catches it and re-raises a 500. -/
theorem c2_missing_columns_gives_500 :
    load_data tsParser0 valParser0 ("dora.csv".toList) [List.replicate 19 "x"] =
      LoadResult.httpError 500 ∧
    load_data tsParser0 valParser0 ("dora.csv".toList) [List.replicate 19 "x"] ≠
      LoadResult.httpError 400 := by decide

/-- C8.  A data row whose extracted timestamp or value field is the
empty string is skipped: it creates no record, surfaces no error, and
the whole ingestion outcome is as if the row were absent. -/
theorem c8_blank_field_skip {τ γ : Type} (parseTs : String → Option τ)
    (parseVal : String → Option γ) (filename : List Char)
    (hdr : List String) (hhdr : hdr.length = 19) (ti vi : Nat)
    (hti : pyIndex tsColName hdr = some ti) (hvi : pyIndex gvColName hdr = some vi)
    (pre post : List (List String)) (r : List String) (ts vs : String)
    (hts : r[ti]? = some ts) (hvs : r[vi]? = some vs)
    (hblank : ts = "" ∨ vs = "") :
    load_data parseTs parseVal filename (hdr :: (pre ++ r :: post)) =
      load_data parseTs parseVal filename (hdr :: (pre ++ post)) := by
  have hskip : processRow parseTs parseVal ((pySplitDot filename).headD []) ti vi r =
      .ok none := by
    have hcond : ¬(ts ≠ "" ∧ vs ≠ "") := by
      rcases hblank with h | h <;> simp [h]
    simp [processRow, hts, hvs, hcond]
  simp only [load_data, findHeader, hhdr, if_true, hti, hvi]
  rw [processRows_skip parseTs parseVal ((pySplitDot filename).headD []) ti vi
    pre post r hskip]

/-- Witness for C8: a blank timestamp row between header and a valid
row changes nothing. -/
theorem c8_witness :
    load_data tsParser0 valParser0 ("hank.csv".toList)
        (hdr0 :: ([] ++ ["", "100"] :: [goodRow0])) =
      load_data tsParser0 valParser0 ("hank.csv".toList) (hdr0 :: ([] ++ [goodRow0])) :=
  c8_blank_field_skip tsParser0 valParser0 ("hank.csv".toList) hdr0 (by decide) 0 1
    (by decide) (by decide) [] [goodRow0] ["", "100"] "" "100"
    (by decide) (by decide) (Or.inl rfl)

/-- C4.  A data row with both fields present and non-empty whose
timestamp or value fails to parse is skipped by the caught ValueError:
no record for it, and the whole ingestion outcome is as if the row were
absent, so well-formed rows elsewhere are still persisted. -/
theorem c4_parse_failure_local {τ γ : Type} (parseTs : String → Option τ)
    (parseVal : String → Option γ) (filename : List Char)
    (hdr : List String) (hhdr : hdr.length = 19) (ti vi : Nat)
    (hti : pyIndex tsColName hdr = some ti) (hvi : pyIndex gvColName hdr = some vi)
    (pre post : List (List String)) (r : List String) (ts vs : String)
    (hts : r[ti]? = some ts) (hvs : r[vi]? = some vs)
    (hne : ts ≠ "" ∧ vs ≠ "")
    (hfail : parseTs ts = none ∨ parseVal vs = none) :
    load_data parseTs parseVal filename (hdr :: (pre ++ r :: post)) =
      load_data parseTs parseVal filename (hdr :: (pre ++ post)) := by
  have hskip : processRow parseTs parseVal ((pySplitDot filename).headD []) ti vi r =
      .ok none := by
    cases hpt : parseTs ts with
    | none => simp [processRow, hts, hvs, hne.1, hne.2, hpt]
    | some t =>
      have hpv : parseVal vs = none := by
        rcases hfail with h | h
        · rw [h] at hpt
          cases hpt
        · exact h
      simp [processRow, hts, hvs, hne.1, hne.2, hpt, hpv]
  simp only [load_data, findHeader, hhdr, if_true, hti, hvi]
  rw [processRows_skip parseTs parseVal ((pySplitDot filename).headD []) ti vi
    pre post r hskip]

/-- Witness for C4: an unparsable timestamp row between header and a
valid row changes nothing. -/
theorem c4_witness :
    load_data tsParser0 valParser0 ("fred.csv".toList)
        (hdr0 :: ([] ++ ["nonsense", "100"] :: [goodRow0])) =
      load_data tsParser0 valParser0 ("fred.csv".toList) (hdr0 :: ([] ++ [goodRow0])) :=
  c4_parse_failure_local tsParser0 valParser0 ("fred.csv".toList) hdr0 (by decide) 0 1
    (by decide) (by decide) [] [goodRow0] ["nonsense", "100"] "nonsense" "100"
    (by decide) (by decide) (by decide) (by decide)

/-- C3 counterexample.  A one-field row after the header (shorter than
the glucose column index 1) is not skipped like an empty field: the
request aborts with HTTP 500 instead of persisting the later valid
row. -/
theorem c3_short_row_counterexample :
    load_data tsParser0 valParser0 ("bob.csv".toList) [hdr0, ["solo"], goodRow0] =
      LoadResult.httpError 500 ∧
    load_data tsParser0 valParser0 ("bob.csv".toList) [hdr0, ["solo"], goodRow0] ≠
      LoadResult.ok [⟨some "bob".toList, some 1, some 2⟩] := by decide

/-- C3 amended.  A data row shorter than a resolved column index raises
IndexError during field extraction; the error is not caught by the
per-row ValueError handler, so the whole ingestion aborts with HTTP 500
and zero records are persisted, including from well-formed rows. -/
theorem c3_short_row_fatal {τ γ : Type} (parseTs : String → Option τ)
    (parseVal : String → Option γ) (filename : List Char)
    (hcsv : ".csv".toList.isSuffixOf filename = true)
    (hdr : List String) (hhdr : hdr.length = 19) (ti vi : Nat)
    (hti : pyIndex tsColName hdr = some ti) (hvi : pyIndex gvColName hdr = some vi)
    (rest : List (List String)) (r : List String) (hmem : r ∈ rest)
    (hshort : r.length ≤ ti ∨ r.length ≤ vi) :
    load_data parseTs parseVal filename (hdr :: rest) = .httpError 500 ∧
    ∀ recs : List (DbRecord τ γ),
      load_data parseTs parseVal filename (hdr :: rest) ≠ .ok recs := by
  have herr := processRows_error_of_mem parseTs parseVal
    ((pySplitDot filename).headD []) ti vi rest r hmem
    (processRow_error_of_short parseTs parseVal _ ti vi r hshort)
  have h1 : load_data parseTs parseVal filename (hdr :: rest) = .httpError 500 := by
    rw [load_data_csv_true parseTs parseVal filename (hdr :: rest) hcsv]
    simp only [findHeader, hhdr, if_true, hti, hvi]
    rw [herr]
  refine ⟨h1, fun recs h => ?_⟩
  rw [h1] at h
  exact absurd h (by simp)

/-- Witness for the amended C3 at a concrete short-row file. -/
theorem c3_witness :
    load_data tsParser0 valParser0 ("erin.csv".toList) [hdr0, ["solo"]] =
      LoadResult.httpError 500 :=
  (c3_short_row_fatal tsParser0 valParser0 ("erin.csv".toList) (by decide) hdr0
    (by decide) 0 1 (by decide) (by decide) [["solo"]] ["solo"]
    (by decide) (by decide)).1

/-- C1 counterexample.  A file whose valid data row is followed by a
truncated (empty) row: the claim predicts the valid row still persists
its one record, but the IndexError on the truncated row aborts the
whole request with HTTP 500 and nothing is persisted. -/
theorem c1_short_row_counterexample :
    load_data tsParser0 valParser0 ("alice.csv".toList) [hdr0, goodRow0, []] =
      LoadResult.httpError 500 ∧
    load_data tsParser0 valParser0 ("alice.csv".toList) [hdr0, goodRow0, []] ≠
      LoadResult.ok [⟨some "alice".toList, some 1, some 2⟩] := by decide

/-- C1 amended.  For a csv-named file whose header resolves both
required columns, and in which every data row after the header is long
enough for both resolved indices, ingestion commits exactly one record
per row in file order for those rows whose two fields parse (the
filterMap of the per-row outcome), each carrying user_id equal to the
filename text before the first dot together with the parsed timestamp
and value. -/
theorem c1_row_persistence {τ γ : Type} (parseTs : String → Option τ)
    (parseVal : String → Option γ)
    (hets : parseTs "" = none) (hevs : parseVal "" = none)
    (filename : List Char) (hcsv : ".csv".toList.isSuffixOf filename = true)
    (rows : List (List String)) (hdr : List String) (rest : List (List String))
    (hfind : findHeader rows = some (hdr, rest))
    (ti vi : Nat) (hti : pyIndex tsColName hdr = some ti)
    (hvi : pyIndex gvColName hdr = some vi)
    (hlen : ∀ r ∈ rest, ti < r.length ∧ vi < r.length) :
    load_data parseTs parseVal filename rows =
      .ok (rest.filterMap (rowOutcome parseTs parseVal ((pySplitDot filename).headD []) ti vi)) ∧
    ∀ r ∈ rest, ∀ ts vs t v, r[ti]? = some ts → r[vi]? = some vs →
      parseTs ts = some t → parseVal vs = some v →
      rowOutcome parseTs parseVal ((pySplitDot filename).headD []) ti vi r =
        some ⟨some (filename.takeWhile (· != '.')), some t, some v⟩ := by
  have hproc := processRows_eq_filterMap parseTs parseVal
    ((pySplitDot filename).headD []) ti vi rest
    (fun r hr => processRow_ne_error parseTs parseVal _ ti vi r (hlen r hr).1 (hlen r hr).2)
  constructor
  · rw [load_data_csv_true parseTs parseVal filename rows hcsv, hfind]
    simp only [hti, hvi]
    rw [hproc]
  · intro r hr ts vs t v hts hvs hpt hpv
    have hts' : ts ≠ "" := by
      intro h
      rw [h, hets] at hpt
      cases hpt
    have hvs' : vs ≠ "" := by
      intro h
      rw [h, hevs] at hpv
      cases hpv
    rw [← pySplitDot_headD]
    simp [rowOutcome, processRow, hts, hvs, hts', hvs', hpt, hpv]

/-- Witness for the amended C1 at the spec scenario alice.csv, with the
committed record evaluated explicitly. -/
theorem c1_witness :
    load_data tsParser0 valParser0 ("alice.csv".toList) [hdr0, goodRow0] =
      LoadResult.ok [⟨some "alice".toList, some 1, some 2⟩] := by
  have h := (c1_row_persistence tsParser0 valParser0 (by decide) (by decide)
    ("alice.csv".toList) (by decide) [hdr0, goodRow0] hdr0 [goodRow0] (by decide)
    0 1 (by decide) (by decide) (by decide)).1
  rw [h]
  decide

/-- C9.  Every record committed by the ingestion pipeline, and every
record persisted by the create endpoint, has non-null user_id,
timestamp and glucose_value; these are the only persisting operations
of the program. -/
theorem c9_nonnull_invariant {τ γ : Type} :
    (∀ (parseTs : String → Option τ) (parseVal : String → Option γ)
        (filename : List Char) (rows : List (List String)) (recs : List (DbRecord τ γ)),
        load_data parseTs parseVal filename rows = .ok recs →
        ∀ rec ∈ recs, rec.user_id ≠ none ∧ rec.timestamp ≠ none ∧
          rec.glucose_value ≠ none) ∧
    (∀ g : GlucoseLevelCreate τ γ,
        (create_glucose_level g).user_id ≠ none ∧
        (create_glucose_level g).timestamp ≠ none ∧
        (create_glucose_level g).glucose_value ≠ none) := by
  constructor
  · intro parseTs parseVal filename rows recs h rec hrec
    rw [load_data] at h
    split at h
    · exact absurd h (by simp)
    · cases hf : findHeader rows with
      | none =>
        simp only [hf] at h
        exact absurd h (by simp)
      | some p =>
        obtain ⟨hdr, rest⟩ := p
        simp only [hf] at h
        cases hti : pyIndex tsColName hdr with
        | none =>
          simp only [hti] at h
          exact absurd h (by simp)
        | some ti =>
          cases hvi : pyIndex gvColName hdr with
          | none =>
            simp only [hti, hvi] at h
            exact absurd h (by simp)
          | some vi =>
            simp only [hti, hvi] at h
            cases hps : processRows parseTs parseVal
                ((pySplitDot filename).headD []) ti vi rest with
            | error e =>
              simp only [hps] at h
              exact absurd h (by simp)
            | ok recs' =>
              simp only [hps, LoadResult.ok.injEq] at h
              subst h
              have hfields := processRows_fields parseTs parseVal
                ((pySplitDot filename).headD []) ti vi rest recs' hps rec hrec
              exact ⟨by simp [hfields.1], hfields.2.1, hfields.2.2⟩
  · intro g
    exact ⟨by simp [create_glucose_level], by simp [create_glucose_level],
      by simp [create_glucose_level]⟩

/-- Witness for C9 on a concrete upload that commits one record. -/
theorem c9_witness :
    (⟨some "iris".toList, some 1, some 2⟩ : DbRecord Nat Nat).user_id ≠ none ∧
    (⟨some "iris".toList, some 1, some 2⟩ : DbRecord Nat Nat).timestamp ≠ none ∧
    (⟨some "iris".toList, some 1, some 2⟩ : DbRecord Nat Nat).glucose_value ≠ none :=
  c9_nonnull_invariant.1 tsParser0 valParser0 ("iris.csv".toList) [hdr0, goodRow0]
    [⟨some "iris".toList, some 1, some 2⟩] (by decide)
    ⟨some "iris".toList, some 1, some 2⟩ (by decide)

/-- C10.  In the list endpoint, whenever an order-by clause is attached
its direction is descending exactly when desc occurs as a substring
anywhere in the sort parameter, its column is the sort parameter with
the occurrences of .asc and then .desc removed, and that column passes
the attribute check; when the stripped column is not an attribute of
the record type the query silently carries no ordering (it is still
built, not rejected). -/
theorem c10_sort_logic {δ : Type} (hasAttr : List Char → Bool) (user_id : List Char)
    (start stop : Option δ) (page page_size : Nat) (sort : List Char) :
    (∀ d col,
      (get_glucose_levels hasAttr user_id start stop page page_size sort).orderBy =
          some (d, col) →
        ((d = true ↔ ∃ l r, sort = l ++ "desc".toList ++ r) ∧
         col = pyReplaceDel ".desc".toList (pyReplaceDel ".asc".toList sort) ∧
         hasAttr col = true)) ∧
    (hasAttr (pyReplaceDel ".desc".toList (pyReplaceDel ".asc".toList sort)) = false →
      (get_glucose_levels hasAttr user_id start stop page page_size sort).orderBy =
        none) := by
  constructor
  · intro d col h
    simp only [get_glucose_levels] at h
    split at h
    · rename_i hfa
      simp only [Option.some.injEq, Prod.mk.injEq] at h
      obtain ⟨hd, hc⟩ := h
      subst hc
      refine ⟨?_, rfl, hfa⟩
      rw [← hd]
      exact pyContains_iff ("desc".toList) sort
    · exact absurd h (by simp)
  · intro hfa
    simp only [get_glucose_levels]
    rw [hfa]
    rfl

/-- Witness for C10: the default sort string timestamp.desc yields a
descending order on the timestamp column, and the theorem recovers the
substring decomposition. -/
theorem c10_witness :
    ∃ l r, "timestamp.desc".toList = l ++ "desc".toList ++ r :=
  (((c10_sort_logic (δ := Nat) (fun c => decide (c = "timestamp".toList)) ("u".toList)
      none none 1 10 ("timestamp.desc".toList)).1 true ("timestamp".toList)
      (by decide)).1).mp rfl

end UnaHealth
